import Mathlib

/-!
Shallow embedding of the settlement / CSV-export core of
`src/expenses_tracker.py` (the functions `calculate_settlement` and
`generate_csv`), together with theorems checking the specification's
claims about them.

A Python number is modelled as a rational value paired with its `str`
rendering (`Amt`): in Python `str 20 = "20"` while `str 20.0 = "20.0"`,
so the rendering is a property of the number object, not of the numeric
value alone.  `generate_csv` embeds `str amt` of the raw amounts into
formula strings while summing their values, so both components are used.
-/

namespace Expenses

set_option maxRecDepth 40000

/-- The canonical category list `CATEGORIES` of `expenses_tracker.py`. -/
def CATEGORIES : List String :=
  ["Rent", "Wifi", "Mobile phone plan", "Hydro/Electricity", "Insurance",
   "Groceries", "Eating Out", "Coffee", "Alcohol", "Travel",
   "Laundry", "Shopping", "Miscellaneous", "Vacation / Entertainment"]

/-- A Python number object: its rational value and its `str` rendering. -/
structure Amt where
  val : ℚ
  txt : String
deriving DecidableEq

/-- An expense record: one of the dicts held in `st.session_state.expenses`
(keys `Category`, `Amount`, `Payer`, `Consumer`). -/
structure ExpRecord where
  category : String
  amount : Amt
  payer : String
  consumer : String
deriving DecidableEq

/-- The five values returned by `calculate_settlement`. -/
structure Settlement where
  total_paid_h : ℚ
  total_paid_m : ℚ
  cost_h : ℚ
  cost_m : ℚ
  balance_h : ℚ
deriving DecidableEq

/-- The four running sums of the loop inside `calculate_settlement`. -/
structure SettleAcc where
  tph : ℚ
  tpm : ℚ
  ch : ℚ
  cm : ℚ
deriving DecidableEq

/-- One iteration of the loop body of `calculate_settlement`: lines 38-54 of
`expenses_tracker.py` (payer branch, then consumer branch). -/
def settleStep (acc : SettleAcc) (exp : ExpRecord) : SettleAcc :=
  let amt := exp.amount.val
  let acc1 :=
    if exp.payer = "H" then { acc with tph := acc.tph + amt }
    else { acc with tpm := acc.tpm + amt }
  if exp.consumer = "Split" then
    { acc1 with ch := acc1.ch + amt / 2, cm := acc1.cm + amt / 2 }
  else if exp.consumer = "H only" then { acc1 with ch := acc1.ch + amt }
  else { acc1 with cm := acc1.cm + amt }

/-- `calculate_settlement` of `expenses_tracker.py`: a single pass over the
records accumulating the four sums, then `balance_h = total_paid_h - cost_h`. -/
def calculate_settlement (data : List ExpRecord) : Settlement :=
  let a := data.foldl settleStep ⟨0, 0, 0, 0⟩
  ⟨a.tph, a.tpm, a.ch, a.cm, a.tph - a.ch⟩

/-- Per-record contribution to `total_paid_h`. -/
def paidHc (e : ExpRecord) : ℚ := if e.payer = "H" then e.amount.val else 0

/-- Per-record contribution to `total_paid_m`. -/
def paidMc (e : ExpRecord) : ℚ := if e.payer = "H" then 0 else e.amount.val

/-- Per-record contribution to `cost_h`. -/
def costHc (e : ExpRecord) : ℚ :=
  if e.consumer = "Split" then e.amount.val / 2
  else if e.consumer = "H only" then e.amount.val else 0

/-- Per-record contribution to `cost_m`. -/
def costMc (e : ExpRecord) : ℚ :=
  if e.consumer = "Split" then e.amount.val / 2
  else if e.consumer = "H only" then 0 else e.amount.val

/-- Sum of `amount` over records with payer `H`, as the spec words
`totalPaidH` ("sums of amount grouped by payer"). -/
def specTotalPaidH (data : List ExpRecord) : ℚ :=
  ((data.filter fun e => e.payer = "H").map fun e => e.amount.val).sum

/-- Sum of `amount` over records with payer `M`, as the spec words it. -/
def specTotalPaidM (data : List ExpRecord) : ℚ :=
  ((data.filter fun e => e.payer = "M").map fun e => e.amount.val).sum

/-- Cost attributed to H as the spec words it: the full amount of every
`H only` record plus half the amount of every `Split` record. -/
def specCostH (data : List ExpRecord) : ℚ :=
  ((data.filter fun e => e.consumer = "H only").map fun e => e.amount.val).sum +
    ((data.filter fun e => e.consumer = "Split").map fun e => e.amount.val).sum / 2

/-- Cost attributed to M as the spec words it. -/
def specCostM (data : List ExpRecord) : ℚ :=
  ((data.filter fun e => e.consumer = "M only").map fun e => e.amount.val).sum +
    ((data.filter fun e => e.consumer = "Split").map fun e => e.amount.val).sum / 2

/-- Two-decimal fixed-point rendering with sign, modelling Python's
`f"\x7bx:.2f\x7d"` on the decimal values that occur here (rounding to the
nearest hundredth). -/
def fmt2 (q : ℚ) : String :=
  let n : ℤ := ⌊q * 100 + 1 / 2⌋
  let frac := n.natAbs % 100
  (if n < 0 then "-" else "") ++ toString (n.natAbs / 100) ++ "." ++
    (if frac < 10 then "0" ++ toString frac else toString frac)

/-- Digits of `m` left-padded with zeros to `k` digits. -/
def padZ (k : ℕ) (m : ℕ) : String :=
  let s := toString m
  String.mk (List.replicate (k - s.length) '0') ++ s

/-- Python's `str` on a computed numeric value, modelled for the decimal
rationals that occur here: integers print without a point, other decimal
fractions print with their shortest exact decimal expansion. -/
def ratStr (q : ℚ) : String :=
  if q.den = 1 then toString q.num
  else
    match (List.range 21).find? (fun k => q.den ∣ 10 ^ k) with
    | some k =>
        let m := q.num.natAbs * (10 ^ k / q.den)
        (if q.num < 0 then "-" else "") ++ toString (m / 10 ^ k) ++ "." ++ padZ k (m % 10 ^ k)
    | none => toString q.num ++ "/" ++ toString q.den

/-- The per-category buckets `{"H": [...], "M": [...], "Split": [...]}` of
`generate_csv`. -/
structure Buckets where
  H : List Amt
  M : List Amt
  Split : List Amt
deriving DecidableEq

def emptyBuckets : Buckets := ⟨[], [], []⟩

/-- Appending one amount to the bucket chosen by the consumer value
(lines 73-78 of `expenses_tracker.py`): `H only`, then `M only`, any other
value falls to `Split`. -/
def addToBucket (b : Buckets) (cons : String) (amt : Amt) : Buckets :=
  if cons = "H only" then { b with H := b.H ++ [amt] }
  else if cons = "M only" then { b with M := b.M ++ [amt] }
  else { b with Split := b.Split ++ [amt] }

/-- Update of the key `cat` in an insertion-ordered association list, creating
it with empty buckets at the end when missing: the Python dict operations
`if cat not in grouped: grouped[cat] = ...` followed by an in-place update. -/
def setGroup : List (String × Buckets) → String → (Buckets → Buckets) → List (String × Buckets)
  | [], cat, f => [(cat, f emptyBuckets)]
  | (c, b) :: rest, cat, f =>
      if c = cat then (c, f b) :: rest else (c, b) :: setGroup rest cat f

/-- One iteration of the grouping loop of `generate_csv` (lines 64-78). -/
def groupStep (g : List (String × Buckets)) (exp : ExpRecord) : List (String × Buckets) :=
  setGroup g exp.category (fun b => addToBucket b exp.consumer exp.amount)

/-- `grouped` seeded with the canonical categories, each with empty buckets. -/
def initGrouped : List (String × Buckets) := CATEGORIES.map fun c => (c, emptyBuckets)

/-- The `grouped` dict after the grouping loop of `generate_csv`. -/
def buildGrouped (data : List ExpRecord) : List (String × Buckets) :=
  data.foldl groupStep initGrouped

/-- First value bound to a key in the association list. -/
def findGroup : List (String × Buckets) → String → Option Buckets
  | [], _ => none
  | (c, b) :: rest, cat => if c = cat then some b else findGroup rest cat

/-- `"+".join(map(str, vals)) if vals else "0"`. -/
def joinPlus (vals : List Amt) : String :=
  if vals = [] then "0" else String.intercalate "+" (vals.map Amt.txt)

/-- `sum(h_vals) + sum(m_vals) + sum(s_vals)` for one category. -/
def bucketTotal (b : Buckets) : ℚ :=
  (b.H.map Amt.val).sum + (b.M.map Amt.val).sum + (b.Split.map Amt.val).sum

/-- One category row (lines 89-97): the two formula cells and the total. -/
def catRow (cat : String) (b : Buckets) : String :=
  cat ++ ",=((" ++ joinPlus b.H ++ ") + (" ++ joinPlus b.Split ++ ")/2),=((" ++
    joinPlus b.M ++ ") + (" ++ joinPlus b.Split ++ ")/2)," ++ ratStr (bucketTotal b) ++ "\n"

/-- `h_vals or m_vals or s_vals`: the category has at least one expense. -/
def hasData (b : Buckets) : Prop := b.H ≠ [] ∨ b.M ≠ [] ∨ b.Split ≠ []

instance (b : Buckets) : Decidable (hasData b) :=
  inferInstanceAs (Decidable (b.H ≠ [] ∨ b.M ≠ [] ∨ b.Split ≠ []))

/-- The category section (loop at lines 83-97): one row appended per category
with data, in the iteration order of `grouped`. -/
def categoryRows (g : List (String × Buckets)) : String :=
  g.foldl (fun out cb => if hasData cb.2 then out ++ catRow cb.1 cb.2 else out) ""

/-- The rows of the category section, as a list of row strings. -/
def rowsOf (g : List (String × Buckets)) : List String :=
  (g.filter fun cb => hasData cb.2).map fun cb => catRow cb.1 cb.2

/-- The settlement sentence of the summary (lines 101-102): a directional
message by the sign of the balance, overwritten by `All Square` when its
magnitude is below the tolerance `0.01`. -/
def settlementTxt (bal : ℚ) : String :=
  let t := if bal > 0 then "M owes H: $" ++ fmt2 |bal| else "H owes M: $" ++ fmt2 |bal|
  if |bal| < 1 / 100 then "All Square" else t

/-- `generate_csv` of `expenses_tracker.py`: header, category section, blank
separator, and the summary block. -/
def generate_csv (data : List ExpRecord) : String :=
  let s := calculate_settlement data
  "Category,H Cost (Formula),M Cost (Formula),Total Category Cost\n" ++
    categoryRows (buildGrouped data) ++
    "\nSUMMARY,,,\n" ++
    "Total Paid By H,$" ++ fmt2 s.total_paid_h ++ ",Total Paid By M,$" ++
      fmt2 s.total_paid_m ++ "\n" ++
    "Who Owes Whom?," ++ settlementTxt s.balance_h ++ ",,\n"


/-- The amounts of the `H only` records of a list, in order. -/
def bucketH (l : List ExpRecord) : List Amt :=
  (l.filter fun e => e.consumer = "H only").map fun e => e.amount

/-- The amounts of the `M only` records of a list, in order. -/
def bucketM (l : List ExpRecord) : List Amt :=
  (l.filter fun e => e.consumer = "M only").map fun e => e.amount

/-- The amounts of the records that fall to the `Split` bucket: every
consumer value other than `H only` and `M only`. -/
def bucketS (l : List ExpRecord) : List Amt :=
  (l.filter fun e => ¬ e.consumer = "H only" ∧ ¬ e.consumer = "M only").map fun e => e.amount

/-- The records of one category, in input order. -/
def catRecords (data : List ExpRecord) (cat : String) : List ExpRecord :=
  data.filter fun e => e.category = cat

/-- Folding a list of records into a bucket triple. -/
def appendRecs (b : Buckets) (l : List ExpRecord) : Buckets :=
  l.foldl (fun b e => addToBucket b e.consumer e.amount) b

/-- The categories of `data` outside `ks`, in order of first appearance. -/
def seenCats (ks : List String) : List ExpRecord → List String
  | [] => []
  | e :: rest =>
      if e.category ∈ ks then seenCats ks rest
      else e.category :: seenCats (ks ++ [e.category]) rest

/-- The dynamically discovered categories: those outside the canonical list,
in order of first appearance. -/
def discoveredCats (data : List ExpRecord) : List String := seenCats CATEGORIES data

/-- A cost-formula cell as the specification words it:
`=((a1+a2+...) + (s1+s2+...)/2)` over the literal bucket amounts, with a
literal `0` substituted for an empty bucket. -/
def specFormula (bucket split : List Amt) : String :=
  "=((" ++ (if bucket = [] then "0" else String.intercalate "+" (bucket.map Amt.txt)) ++
    ") + (" ++ (if split = [] then "0" else String.intercalate "+" (split.map Amt.txt)) ++
    ")/2)"

/-! ### Example records used at concrete inputs -/

/-- `\x7b"Category": "Groceries", "Amount": 20, "Payer": "H", "Consumer": "H only"\x7d`. -/
def rH20 : ExpRecord := ⟨"Groceries", ⟨20, "20"⟩, "H", "H only"⟩

def rM10 : ExpRecord := ⟨"Groceries", ⟨10, "10"⟩, "M", "M only"⟩

def rS30 : ExpRecord := ⟨"Groceries", ⟨30, "30"⟩, "H", "Split"⟩

/-- A record with a category outside the canonical list. -/
def rPets : ExpRecord := ⟨"Pets", ⟨12, "12"⟩, "M", "Split"⟩

/-- Paid by H, consumed by M: the whole amount becomes the balance. -/
def rBal001 : ExpRecord := ⟨"Rent", ⟨1 / 100, "0.01"⟩, "H", "M only"⟩

def rBal0005 : ExpRecord := ⟨"Rent", ⟨1 / 200, "0.005"⟩, "H", "M only"⟩

def rBal0011 : ExpRecord := ⟨"Rent", ⟨11 / 1000, "0.011"⟩, "H", "M only"⟩

/-- A record with a payer other than `H`/`M` and an unknown consumer string. -/
def rOdd : ExpRecord := ⟨"Vet", ⟨7, "7"⟩, "X", "Both?"⟩

/-- A record with a payer other than `H`/`M` but an ordinary `Split`
consumer: the payer and consumer branches act independently. -/
def rXSplit : ExpRecord := ⟨"Coffee", ⟨5, "5"⟩, "X", "Split"⟩

/-! ### Loop lemmas for the settlement pass -/

theorem settleStep_eq (acc : SettleAcc) (e : ExpRecord) :
    settleStep acc e =
      ⟨acc.tph + paidHc e, acc.tpm + paidMc e, acc.ch + costHc e, acc.cm + costMc e⟩ := by
  unfold settleStep paidHc paidMc costHc costMc
  by_cases hp : e.payer = "H" <;>
    by_cases hs : e.consumer = "Split" <;>
      by_cases hh : e.consumer = "H only" <;>
        simp [hp, hs, hh]

theorem foldl_settleStep (data : List ExpRecord) (a : SettleAcc) :
    data.foldl settleStep a =
      ⟨a.tph + (data.map paidHc).sum, a.tpm + (data.map paidMc).sum,
       a.ch + (data.map costHc).sum, a.cm + (data.map costMc).sum⟩ := by
  induction data generalizing a with
  | nil => cases a; simp
  | cons e rest ih =>
      simp only [List.foldl_cons, List.map_cons, List.sum_cons, ih, settleStep_eq]
      simp [SettleAcc.mk.injEq, add_assoc]

/-- Closed form of `calculate_settlement`: each field is the sum of the
per-record contributions. -/
theorem calculate_settlement_eq (data : List ExpRecord) :
    calculate_settlement data =
      ⟨(data.map paidHc).sum, (data.map paidMc).sum,
       (data.map costHc).sum, (data.map costMc).sum,
       (data.map paidHc).sum - (data.map costHc).sum⟩ := by
  unfold calculate_settlement
  simp [foldl_settleStep]

/-! ### Sum helpers -/

theorem sum_map_ite {α : Type} (p : α → Prop) [DecidablePred p] (f : α → ℚ) (l : List α) :
    (l.map fun a => if p a then f a else 0).sum = ((l.filter fun a => p a).map f).sum := by
  induction l with
  | nil => simp
  | cons a l ih => by_cases h : p a <;> simp [h, ih]

theorem sum_map_add {α : Type} (f g : α → ℚ) (l : List α) :
    (l.map fun a => f a + g a).sum = (l.map f).sum + (l.map g).sum := by
  induction l with
  | nil => simp
  | cons a l ih => simp [ih]; ring

theorem sum_map_div {α : Type} (f : α → ℚ) (c : ℚ) (l : List α) :
    (l.map fun a => f a / c).sum = (l.map f).sum / c := by
  induction l with
  | nil => simp
  | cons a l ih => simp [ih, add_div]

/-! ### Settlement components versus the specification's sums -/

theorem paidH_sum (data : List ExpRecord) :
    (data.map paidHc).sum = specTotalPaidH data := by
  unfold specTotalPaidH
  induction data with
  | nil => simp
  | cons e rest ih => by_cases h : e.payer = "H" <;> simp [paidHc, h, ih]

theorem paidM_sum (data : List ExpRecord)
    (hp : ∀ e ∈ data, e.payer = "H" ∨ e.payer = "M") :
    (data.map paidMc).sum = specTotalPaidM data := by
  unfold specTotalPaidM
  revert hp
  induction data with
  | nil => intro _; simp
  | cons e rest ih =>
      intro hp
      have ihr := ih fun x hx => hp x (List.mem_cons_of_mem e hx)
      rcases hp e (List.mem_cons_self e rest) with h | h
      · have h2 : ¬ e.payer = "M" := by rw [h]; decide
        simp [paidMc, h, h2, ihr]
      · have h2 : ¬ e.payer = "H" := by rw [h]; decide
        simp [paidMc, h, h2, ihr]

theorem costH_sum (data : List ExpRecord) :
    (data.map costHc).sum = specCostH data := by
  unfold specCostH
  induction data with
  | nil => simp
  | cons e rest ih =>
      by_cases hs : e.consumer = "Split"
      · have hh : ¬ e.consumer = "H only" := by rw [hs]; decide
        simp [costHc, hs, hh, ih]
        ring
      · by_cases hh : e.consumer = "H only"
        · simp [costHc, hs, hh, ih]
          ring
        · simp [costHc, hs, hh, ih]

theorem costM_sum (data : List ExpRecord)
    (hc : ∀ e ∈ data, e.consumer = "Split" ∨ e.consumer = "H only" ∨ e.consumer = "M only") :
    (data.map costMc).sum = specCostM data := by
  unfold specCostM
  revert hc
  induction data with
  | nil => intro _; simp
  | cons e rest ih =>
      intro hc
      have ihr := ih fun x hx => hc x (List.mem_cons_of_mem e hx)
      rcases hc e (List.mem_cons_self e rest) with h | h | h
      · have h1 : ¬ e.consumer = "M only" := by rw [h]; decide
        simp [costMc, h, h1, ihr]
        ring
      · have h1 : ¬ e.consumer = "M only" := by rw [h]; decide
        have h2 : ¬ e.consumer = "Split" := by rw [h]; decide
        simp [costMc, h, h1, h2, ihr]
      · have h1 : ¬ e.consumer = "H only" := by rw [h]; decide
        have h2 : ¬ e.consumer = "Split" := by rw [h]; decide
        simp [costMc, h, h1, h2, ihr]
        ring

/-- Each record contributes its full amount to exactly one paid total and,
through the consumer branches, its full amount in total to the two costs. -/
theorem paid_cost_conservation (data : List ExpRecord) :
    (data.map paidHc).sum + (data.map paidMc).sum =
      (data.map costHc).sum + (data.map costMc).sum := by
  have h : ∀ e : ExpRecord, paidHc e + paidMc e = costHc e + costMc e := by
    intro e
    unfold paidHc paidMc costHc costMc
    by_cases hp : e.payer = "H" <;>
      by_cases hs : e.consumer = "Split" <;>
        by_cases hh : e.consumer = "H only" <;> simp [hp, hs, hh]
  rw [← sum_map_add, ← sum_map_add, List.map_congr_left fun e _ => h e]

/-- C1: for every sequence of well-formed records, `calculate_settlement`
returns the payer-grouped paid sums, the consumer-attributed costs (full
amount to the sole consumer, half to each side for Split), and a balance
`totalPaidH - costH`, which also equals `costM - totalPaidM`. -/
theorem c1_settlement_spec (data : List ExpRecord)
    (hp : ∀ e ∈ data, e.payer = "H" ∨ e.payer = "M")
    (hc : ∀ e ∈ data, e.consumer = "Split" ∨ e.consumer = "H only" ∨ e.consumer = "M only") :
    calculate_settlement data =
      ⟨specTotalPaidH data, specTotalPaidM data, specCostH data, specCostM data,
        specTotalPaidH data - specCostH data⟩ ∧
    (calculate_settlement data).balance_h = specCostM data - specTotalPaidM data := by
  have hbal : (data.map paidHc).sum - (data.map costHc).sum =
      (data.map costMc).sum - (data.map paidMc).sum := by
    have := paid_cost_conservation data
    linarith
  constructor
  · rw [calculate_settlement_eq]
    rw [paidH_sum, paidM_sum data hp, costH_sum, costM_sum data hc]
  · rw [calculate_settlement_eq]
    simp only
    rw [hbal, costM_sum data hc, paidM_sum data hp]

/-- Witness for C1 at the three Groceries records. -/
theorem c1_settlement_spec_witness :
    calculate_settlement [rH20, rM10, rS30] =
      ⟨specTotalPaidH [rH20, rM10, rS30], specTotalPaidM [rH20, rM10, rS30],
        specCostH [rH20, rM10, rS30], specCostM [rH20, rM10, rS30],
        specTotalPaidH [rH20, rM10, rS30] - specCostH [rH20, rM10, rS30]⟩ ∧
    (calculate_settlement [rH20, rM10, rS30]).balance_h =
      specCostM [rH20, rM10, rS30] - specTotalPaidM [rH20, rM10, rS30] :=
  c1_settlement_spec [rH20, rM10, rS30] (by decide) (by decide)

/-- C6: on the empty record sequence the settlement is all zeros and the
export is the header, no category rows, and the all-zero summary. -/
theorem c6_empty_input :
    calculate_settlement [] = ⟨0, 0, 0, 0, 0⟩ ∧
    generate_csv [] =
      "Category,H Cost (Formula),M Cost (Formula),Total Category Cost\n\nSUMMARY,,,\nTotal Paid By H,$0.00,Total Paid By M,$0.00\nWho Owes Whom?,All Square,,\n" := by
  constructor
  · with_unfolding_all decide
  · with_unfolding_all decide

/-- C7: `calculate_settlement` depends only on the multiset of records — any
permutation of the input yields the identical result. -/
theorem c7_order_independence (l₁ l₂ : List ExpRecord) (h : l₁.Perm l₂) :
    calculate_settlement l₁ = calculate_settlement l₂ := by
  rw [calculate_settlement_eq, calculate_settlement_eq]
  rw [(h.map paidHc).sum_eq, (h.map paidMc).sum_eq, (h.map costHc).sum_eq,
    (h.map costMc).sum_eq]

/-- Witness for C7: swapping two concrete records. -/
theorem c7_order_independence_witness :
    calculate_settlement [rH20, rS30] = calculate_settlement [rS30, rH20] :=
  c7_order_independence [rH20, rS30] [rS30, rH20] (List.Perm.swap rS30 rH20 [])

/-- C9: `generate_csv` is a pure function of the record sequence — equal
inputs give byte-identical output strings. -/
theorem c9_deterministic (d₁ d₂ : List ExpRecord) (h : d₁ = d₂) :
    generate_csv d₁ = generate_csv d₂ :=
  congrArg generate_csv h

/-- Witness for C9 at a concrete input. -/
theorem c9_deterministic_witness :
    generate_csv [rH20, rPets] = generate_csv [rH20, rPets] :=
  c9_deterministic [rH20, rPets] [rH20, rPets] rfl

/-! ### Association-list lemmas for the grouping dict -/

theorem findGroup_setGroup (g : List (String × Buckets)) (cat : String) (f : Buckets → Buckets)
    (c : String) :
    findGroup (setGroup g cat f) c =
      if c = cat then some (f ((findGroup g cat).getD emptyBuckets)) else findGroup g c := by
  induction g with
  | nil =>
      by_cases h : c = cat
      · simp [setGroup, findGroup, h]
      · simp [setGroup, findGroup, h, Ne.symm h]
  | cons kb rest ih =>
      obtain ⟨k, b⟩ := kb
      by_cases hk : k = cat
      · subst hk
        by_cases hc : c = k
        · simp [setGroup, findGroup, hc]
        · simp [setGroup, findGroup, hc, Ne.symm hc]
      · by_cases hc : c = k
        · subst hc
          simp [setGroup, findGroup, hk, Ne.symm hk]
        · simp [setGroup, findGroup, hk, hc, Ne.symm hc, ih]

theorem keys_setGroup (g : List (String × Buckets)) (cat : String) (f : Buckets → Buckets) :
    (setGroup g cat f).map Prod.fst =
      if cat ∈ g.map Prod.fst then g.map Prod.fst else g.map Prod.fst ++ [cat] := by
  induction g with
  | nil => simp [setGroup]
  | cons kb rest ih =>
      obtain ⟨k, b⟩ := kb
      by_cases hk : k = cat
      · simp [setGroup, hk]
      · by_cases hm : cat ∈ rest.map Prod.fst <;>
          simp [setGroup, hk, ih, hm, Ne.symm hk]

theorem findGroup_mem (g : List (String × Buckets)) (c : String) (b : Buckets)
    (h : findGroup g c = some b) : (c, b) ∈ g := by
  induction g with
  | nil => simp [findGroup] at h
  | cons kb rest ih =>
      obtain ⟨k, v⟩ := kb
      by_cases hk : k = c
      · subst hk
        simp [findGroup] at h
        simp [h]
      · simp [findGroup, hk] at h
        exact List.mem_cons_of_mem _ (ih h)

theorem appendRecs_cons (b : Buckets) (e : ExpRecord) (l : List ExpRecord) :
    appendRecs b (e :: l) = appendRecs (addToBucket b e.consumer e.amount) l := rfl

theorem appendRecs_eq (l : List ExpRecord) (b : Buckets) :
    appendRecs b l = ⟨b.H ++ bucketH l, b.M ++ bucketM l, b.Split ++ bucketS l⟩ := by
  induction l generalizing b with
  | nil => cases b; simp [appendRecs, bucketH, bucketM, bucketS]
  | cons e rest ih =>
      rw [appendRecs_cons, ih]
      by_cases h1 : e.consumer = "H only"
      · have h2 : ¬ e.consumer = "M only" := by rw [h1]; decide
        simp [addToBucket, bucketH, bucketM, bucketS, h1, h2]
      · by_cases h2 : e.consumer = "M only" <;>
          simp [addToBucket, bucketH, bucketM, bucketS, h1, h2]

theorem findGroup_foldl_some (data : List ExpRecord) (g : List (String × Buckets))
    (c : String) (b : Buckets) (h : findGroup g c = some b) :
    findGroup (data.foldl groupStep g) c = some (appendRecs b (catRecords data c)) := by
  induction data generalizing g b with
  | nil => simpa [catRecords, appendRecs] using h
  | cons e rest ih =>
      simp only [List.foldl_cons]
      by_cases hc : c = e.category
      · have hstep : findGroup (groupStep g e) c =
            some (addToBucket b e.consumer e.amount) := by
          rw [groupStep, findGroup_setGroup, if_pos hc, ← hc, h]
          rfl
        rw [ih _ _ hstep]
        have hrec : catRecords (e :: rest) c = e :: catRecords rest c := by
          simp [catRecords, hc.symm]
        rw [hrec, appendRecs_cons]
      · have hstep : findGroup (groupStep g e) c = some b := by
          rw [groupStep, findGroup_setGroup, if_neg hc, h]
        rw [ih _ _ hstep]
        have hrec : catRecords (e :: rest) c = catRecords rest c := by
          simp [catRecords, Ne.symm hc]
        rw [hrec]

theorem findGroup_foldl_none (data : List ExpRecord) (g : List (String × Buckets))
    (c : String) (h : findGroup g c = none) :
    findGroup (data.foldl groupStep g) c =
      if catRecords data c = [] then none
      else some (appendRecs emptyBuckets (catRecords data c)) := by
  induction data generalizing g with
  | nil => simpa [catRecords] using h
  | cons e rest ih =>
      simp only [List.foldl_cons]
      by_cases hc : c = e.category
      · have hstep : findGroup (groupStep g e) c =
            some (addToBucket emptyBuckets e.consumer e.amount) := by
          rw [groupStep, findGroup_setGroup, if_pos hc, ← hc, h]
          rfl
        rw [findGroup_foldl_some rest _ c _ hstep]
        have hrec : catRecords (e :: rest) c = e :: catRecords rest c := by
          simp [catRecords, hc.symm]
        rw [hrec, if_neg (by simp), appendRecs_cons]
      · have hstep : findGroup (groupStep g e) c = none := by
          rw [groupStep, findGroup_setGroup, if_neg hc, h]
        rw [ih _ hstep]
        have hrec : catRecords (e :: rest) c = catRecords rest c := by
          simp [catRecords, Ne.symm hc]
        rw [hrec]

theorem findGroup_seed (l : List String) (c : String) :
    findGroup (l.map fun s => (s, emptyBuckets)) c =
      if c ∈ l then some emptyBuckets else none := by
  induction l with
  | nil => simp [findGroup]
  | cons k rest ih =>
      by_cases hk : k = c
      · simp [findGroup, hk]
      · simp [findGroup, hk, ih, Ne.symm hk]

/-- The grouping dict looks up a category to exactly the record-wise buckets
of that category, present iff the category is canonical or occurs in the data. -/
theorem findGroup_buildGrouped (data : List ExpRecord) (c : String) :
    findGroup (buildGrouped data) c =
      if c ∈ CATEGORIES ∨ ¬ catRecords data c = [] then
        some ⟨bucketH (catRecords data c), bucketM (catRecords data c),
          bucketS (catRecords data c)⟩
      else none := by
  unfold buildGrouped
  by_cases hm : c ∈ CATEGORIES
  · rw [findGroup_foldl_some data initGrouped c emptyBuckets
      (by rw [initGrouped, findGroup_seed, if_pos hm])]
    simp [hm, appendRecs_eq, emptyBuckets]
  · rw [findGroup_foldl_none data initGrouped c
      (by rw [initGrouped, findGroup_seed, if_neg hm])]
    by_cases hr : catRecords data c = [] <;> simp [hm, hr, appendRecs_eq, emptyBuckets]

theorem keys_foldl (data : List ExpRecord) (g : List (String × Buckets)) :
    (data.foldl groupStep g).map Prod.fst = g.map Prod.fst ++ seenCats (g.map Prod.fst) data := by
  induction data generalizing g with
  | nil => simp [seenCats]
  | cons e rest ih =>
      simp only [List.foldl_cons]
      rw [ih]
      by_cases hm : e.category ∈ g.map Prod.fst
      · rw [groupStep, keys_setGroup, if_pos hm]
        simp [seenCats, hm]
      · rw [groupStep, keys_setGroup, if_neg hm]
        simp [seenCats, hm]

/-- C4's ordering skeleton: canonical categories in their given order, then
the dynamically discovered ones in first-seen order. -/
theorem keys_buildGrouped (data : List ExpRecord) :
    (buildGrouped data).map Prod.fst = CATEGORIES ++ discoveredCats data := by
  unfold buildGrouped discoveredCats
  have hseed : initGrouped.map Prod.fst = CATEGORIES := by
    with_unfolding_all decide
  rw [keys_foldl, hseed]

theorem seenCats_nodup (data : List ExpRecord) :
    ∀ ks : List String, ks.Nodup → (ks ++ seenCats ks data).Nodup := by
  induction data with
  | nil => intro ks h; simpa [seenCats] using h
  | cons e rest ih =>
      intro ks h
      by_cases hm : e.category ∈ ks
      · simpa [seenCats, hm] using ih ks h
      · have hrw : ks ++ seenCats ks (e :: rest) =
            (ks ++ [e.category]) ++ seenCats (ks ++ [e.category]) rest := by
          simp [seenCats, hm]
        rw [hrw]
        exact ih (ks ++ [e.category]) (by simp [List.nodup_append, h, hm])

theorem keys_buildGrouped_nodup (data : List ExpRecord) :
    ((buildGrouped data).map Prod.fst).Nodup := by
  rw [keys_buildGrouped]
  exact seenCats_nodup data CATEGORIES (by decide)

/-! ### Category rows -/

theorem join_nil : String.join ([] : List String) = "" := rfl

theorem join_cons (a : String) (l : List String) :
    String.join (a :: l) = a ++ String.join l := by
  apply String.ext
  simp [String.data_join]

theorem foldl_rows (g : List (String × Buckets)) (s : String) :
    g.foldl (fun out cb => if hasData cb.2 then out ++ catRow cb.1 cb.2 else out) s =
      s ++ String.join (rowsOf g) := by
  induction g generalizing s with
  | nil =>
      show s = s ++ String.join (rowsOf [])
      rw [show rowsOf [] = [] from rfl, join_nil, String.append_empty]
  | cons cb rest ih =>
      by_cases h : hasData cb.2
      · have hrow : rowsOf (cb :: rest) = catRow cb.1 cb.2 :: rowsOf rest := by
          simp [rowsOf, h]
        simp only [List.foldl_cons, if_pos h, ih, hrow, join_cons, String.append_assoc]
      · have hrow : rowsOf (cb :: rest) = rowsOf rest := by
          simp [rowsOf, h]
        simp only [List.foldl_cons, if_neg h, ih, hrow]

theorem categoryRows_eq (g : List (String × Buckets)) :
    categoryRows g = String.join (rowsOf g) := by
  unfold categoryRows
  rw [foldl_rows]
  simp

/-- `generate_csv` as header, joined category rows, separator, and summary. -/
theorem generate_csv_eq (data : List ExpRecord) :
    generate_csv data =
      "Category,H Cost (Formula),M Cost (Formula),Total Category Cost\n" ++
        String.join (rowsOf (buildGrouped data)) ++
        "\nSUMMARY,,,\n" ++
        "Total Paid By H,$" ++ fmt2 (calculate_settlement data).total_paid_h ++
        ",Total Paid By M,$" ++ fmt2 (calculate_settlement data).total_paid_m ++ "\n" ++
        "Who Owes Whom?," ++ settlementTxt (calculate_settlement data).balance_h ++ ",,\n" := by
  unfold generate_csv
  rw [categoryRows_eq]

/-- The export always ends with the who-owes-whom row built from the
settlement sentence. -/
theorem generate_csv_suffix (data : List ExpRecord) :
    ∃ pre, generate_csv data =
      pre ++ ("Who Owes Whom?," ++ settlementTxt (calculate_settlement data).balance_h ++ ",,\n") := by
  refine ⟨"Category,H Cost (Formula),M Cost (Formula),Total Category Cost\n" ++
    String.join (rowsOf (buildGrouped data)) ++ "\nSUMMARY,,,\n" ++
    "Total Paid By H,$" ++ fmt2 (calculate_settlement data).total_paid_h ++
    ",Total Paid By M,$" ++ fmt2 (calculate_settlement data).total_paid_m ++ "\n", ?_⟩
  rw [generate_csv_eq]
  simp only [String.append_assoc]

theorem mem_catRecords (data : List ExpRecord) (e : ExpRecord) (he : e ∈ data) :
    e ∈ catRecords data e.category := by
  simp [catRecords, he]

/-- A category some record belongs to has nonempty buckets. -/
theorem hasData_of_mem (data : List ExpRecord) (e : ExpRecord) (he : e ∈ data) :
    hasData ⟨bucketH (catRecords data e.category), bucketM (catRecords data e.category),
      bucketS (catRecords data e.category)⟩ := by
  have hmem := mem_catRecords data e he
  by_cases h1 : e.consumer = "H only"
  · refine Or.inl ?_
    have : e.amount ∈ bucketH (catRecords data e.category) := by
      unfold bucketH
      exact List.mem_map_of_mem _ (List.mem_filter.2 ⟨hmem, by simp [h1]⟩)
    exact List.ne_nil_of_mem this
  · by_cases h2 : e.consumer = "M only"
    · refine Or.inr (Or.inl ?_)
      have : e.amount ∈ bucketM (catRecords data e.category) := by
        unfold bucketM
        exact List.mem_map_of_mem _ (List.mem_filter.2 ⟨hmem, by simp [h2]⟩)
      exact List.ne_nil_of_mem this
    · refine Or.inr (Or.inr ?_)
      have : e.amount ∈ bucketS (catRecords data e.category) := by
        unfold bucketS
        exact List.mem_map_of_mem _ (List.mem_filter.2 ⟨hmem, by simp [h1, h2]⟩)
      exact List.ne_nil_of_mem this

theorem catRow_mem_rowsOf (g : List (String × Buckets)) (c : String) (b : Buckets)
    (hfind : findGroup g c = some b) (hdata : hasData b) :
    catRow c b ∈ rowsOf g := by
  have hb : (c, b) ∈ g.filter fun cb => hasData cb.2 :=
    List.mem_filter.2 ⟨findGroup_mem g c b hfind, by simpa⟩
  have := List.mem_map_of_mem (f := fun cb : String × Buckets => catRow cb.1 cb.2) hb
  simpa [rowsOf] using this

theorem catRecords_mem (data : List ExpRecord) (cat : String) (e : ExpRecord)
    (h : e ∈ catRecords data cat) : e ∈ data ∧ e.category = cat := by
  have := List.mem_filter.1 h
  exact ⟨this.1, by simpa using this.2⟩

/-- Nonempty buckets of a category only arise from records of that category. -/
theorem exists_record_of_hasData (data : List ExpRecord) (cat : String)
    (h : hasData ⟨bucketH (catRecords data cat), bucketM (catRecords data cat),
      bucketS (catRecords data cat)⟩) :
    ∃ e ∈ data, e.category = cat := by
  have hex : ∃ e, e ∈ catRecords data cat := by
    rcases h with h | h | h
    · unfold bucketH at h
      obtain ⟨a, ha⟩ := List.exists_mem_of_ne_nil _ h
      obtain ⟨e, he, _⟩ := List.mem_map.1 ha
      exact ⟨e, (List.mem_filter.1 he).1⟩
    · unfold bucketM at h
      obtain ⟨a, ha⟩ := List.exists_mem_of_ne_nil _ h
      obtain ⟨e, he, _⟩ := List.mem_map.1 ha
      exact ⟨e, (List.mem_filter.1 he).1⟩
    · unfold bucketS at h
      obtain ⟨a, ha⟩ := List.exists_mem_of_ne_nil _ h
      obtain ⟨e, he, _⟩ := List.mem_map.1 ha
      exact ⟨e, (List.mem_filter.1 he).1⟩
  obtain ⟨e, he⟩ := hex
  obtain ⟨h1, h2⟩ := catRecords_mem data cat e he
  exact ⟨e, h1, h2⟩

/-! ### The claims -/

/-- The settlement sentence as a single conditional: the overwrite in the
source is equivalent to testing the tolerance first. -/
theorem settlementTxt_eq (bal : ℚ) :
    settlementTxt bal =
      if |bal| < 1 / 100 then "All Square"
      else if bal > 0 then "M owes H: $" ++ fmt2 |bal| else "H owes M: $" ++ fmt2 |bal| := by
  unfold settlementTxt
  by_cases h1 : |bal| < 1 / 100 <;> by_cases h2 : bal > 0 <;> simp [h1, h2]

/-- C2 (corrected at the boundary): a balance of exactly `0.01` does not
satisfy `balance > 0.01`, so the claim as stated predicts `All Square`, but
the export reports `M owes H: $0.01`. -/
theorem c2_boundary_counterexample :
    (calculate_settlement [rBal001]).balance_h = 1 / 100 ∧
    ¬ ((calculate_settlement [rBal001]).balance_h > 1 / 100) ∧
    ¬ ((calculate_settlement [rBal001]).balance_h < -(1 / 100)) ∧
    generate_csv [rBal001] =
      "Category,H Cost (Formula),M Cost (Formula),Total Category Cost\nRent,=((0) + (0)/2),=((0.01) + (0)/2),0.01\n\nSUMMARY,,,\nTotal Paid By H,$0.01,Total Paid By M,$0.00\nWho Owes Whom?,M owes H: $0.01,,\n" ∧
    settlementTxt (calculate_settlement [rBal001]).balance_h ≠ "All Square" := by
  refine ⟨?_, ?_, ?_, ?_, ?_⟩ <;> with_unfolding_all decide

/-- C2 as amended: the settlement sentence of the export is
`M owes H: $X.XX` when balance ≥ 0.01, `H owes M: $X.XX` when
balance ≤ -0.01, and `All Square` when its magnitude is below 0.01;
a balance of 0.005 yields `All Square` and 0.011 the directional message. -/
theorem c2_settlement_sentence (data : List ExpRecord) :
    ((calculate_settlement data).balance_h ≥ 1 / 100 →
      settlementTxt (calculate_settlement data).balance_h =
        "M owes H: $" ++ fmt2 |(calculate_settlement data).balance_h|) ∧
    ((calculate_settlement data).balance_h ≤ -(1 / 100) →
      settlementTxt (calculate_settlement data).balance_h =
        "H owes M: $" ++ fmt2 |(calculate_settlement data).balance_h|) ∧
    (|(calculate_settlement data).balance_h| < 1 / 100 →
      settlementTxt (calculate_settlement data).balance_h = "All Square") ∧
    (∃ pre, generate_csv data =
      pre ++ ("Who Owes Whom?," ++
        settlementTxt (calculate_settlement data).balance_h ++ ",,\n")) ∧
    settlementTxt (calculate_settlement [rBal0005]).balance_h = "All Square" ∧
    settlementTxt (calculate_settlement [rBal0011]).balance_h = "M owes H: $0.01" := by
  refine ⟨?_, ?_, ?_, generate_csv_suffix data, ?_, ?_⟩
  · intro h
    have h1 : ¬ (|(calculate_settlement data).balance_h| < 1 / 100) :=
      not_lt.2 (le_trans h (le_abs_self _))
    have h2 : (calculate_settlement data).balance_h > 0 :=
      lt_of_lt_of_le (by norm_num) h
    rw [settlementTxt_eq, if_neg h1, if_pos h2]
  · intro h
    have h1 : ¬ (|(calculate_settlement data).balance_h| < 1 / 100) :=
      not_lt.2 (le_trans (by linarith) (neg_le_abs _))
    have h2 : ¬ ((calculate_settlement data).balance_h > 0) := by linarith
    rw [settlementTxt_eq, if_neg h1, if_neg h2]
  · intro h
    rw [settlementTxt_eq, if_pos h]
  · with_unfolding_all decide
  · with_unfolding_all decide

/-- Witness for C2 at a record giving balance exactly `0.01`: the first
branch of the amended claim applies. -/
theorem c2_settlement_sentence_witness :
    settlementTxt (calculate_settlement [rBal001]).balance_h =
      "M owes H: $" ++ fmt2 |(calculate_settlement [rBal001]).balance_h| :=
  (c2_settlement_sentence [rBal001]).1 (by with_unfolding_all decide)

/-- C3: the cost-formula cells are built from the literal bucket amounts in
the shape `=((a1+a2+...) + (s1+s2+...)/2)` with `0` for an empty bucket, and
the Groceries example (20 H-only, 10 M-only, 30 Split) produces exactly the
claimed row. -/
theorem c3_formula_construction :
    generate_csv [rH20, rM10, rS30] =
      "Category,H Cost (Formula),M Cost (Formula),Total Category Cost\nGroceries,=((20) + (30)/2),=((10) + (30)/2),60\n\nSUMMARY,,,\nTotal Paid By H,$50.00,Total Paid By M,$10.00\nWho Owes Whom?,M owes H: $15.00,,\n" ∧
    ∀ cat b, catRow cat b =
      cat ++ "," ++ specFormula b.H b.Split ++ "," ++ specFormula b.M b.Split ++ "," ++
        ratStr (bucketTotal b) ++ "\n" := by
  constructor
  · with_unfolding_all decide
  · intro cat b
    unfold catRow specFormula joinPlus
    rw [show ",=((" = "," ++ "=((" from rfl,
      show ")/2),=((" = ")/2)" ++ ("," ++ "=((") from rfl,
      show ")/2)," = ")/2)" ++ "," from rfl]
    simp only [String.append_assoc]

/-- C4: every record's category is a key of the grouping — canonical
categories first, in their given order, then dynamically discovered
categories in first-seen order — and every record yields a row for its
category in the export's category section. -/
theorem c4_unknown_categories (data : List ExpRecord) :
    (buildGrouped data).map Prod.fst = CATEGORIES ++ discoveredCats data ∧
    ∀ e ∈ data, ∃ b, findGroup (buildGrouped data) e.category = some b ∧ hasData b ∧
      catRow e.category b ∈ rowsOf (buildGrouped data) := by
  refine ⟨keys_buildGrouped data, fun e he => ?_⟩
  have hne : ¬ catRecords data e.category = [] :=
    List.ne_nil_of_mem (mem_catRecords data e he)
  have hfind := findGroup_buildGrouped data e.category
  rw [if_pos (Or.inr hne)] at hfind
  exact ⟨_, hfind, hasData_of_mem data e he,
    catRow_mem_rowsOf _ _ _ hfind (hasData_of_mem data e he)⟩

/-- Witness for C4: a `Pets` record (category outside the canonical list)
still gets a grouped bucket and a row. -/
theorem c4_unknown_categories_witness :
    ∃ b, findGroup (buildGrouped [rPets]) rPets.category = some b ∧ hasData b ∧
      catRow rPets.category b ∈ rowsOf (buildGrouped [rPets]) :=
  (c4_unknown_categories [rPets]).2 rPets (by simp)

/-- C5: the export is exactly the header line, one row per category with at
least one expense (keys are distinct, so exactly one row per category; a
category with no records has empty buckets and no row), a blank separator,
the `SUMMARY,,,` line, the paid-totals row and the who-owes-whom row. -/
theorem c5_csv_structure (data : List ExpRecord) :
    generate_csv data =
      "Category,H Cost (Formula),M Cost (Formula),Total Category Cost\n" ++
        String.join (rowsOf (buildGrouped data)) ++
        "\nSUMMARY,,,\n" ++
        "Total Paid By H,$" ++ fmt2 (calculate_settlement data).total_paid_h ++
        ",Total Paid By M,$" ++ fmt2 (calculate_settlement data).total_paid_m ++ "\n" ++
        "Who Owes Whom?," ++ settlementTxt (calculate_settlement data).balance_h ++ ",,\n" ∧
    rowsOf (buildGrouped data) =
      ((buildGrouped data).filter fun cb => hasData cb.2).map (fun cb => catRow cb.1 cb.2) ∧
    ((buildGrouped data).map Prod.fst).Nodup ∧
    (∀ cat, (∃ b, findGroup (buildGrouped data) cat = some b ∧ hasData b) ↔
      ∃ e ∈ data, e.category = cat) := by
  refine ⟨generate_csv_eq data, rfl, keys_buildGrouped_nodup data, fun cat => ?_⟩
  constructor
  · rintro ⟨b, hfind, hdata⟩
    rw [findGroup_buildGrouped] at hfind
    by_cases hcond : cat ∈ CATEGORIES ∨ ¬ catRecords data cat = []
    · rw [if_pos hcond] at hfind
      injection hfind with hb
      subst hb
      exact exists_record_of_hasData data cat hdata
    · rw [if_neg hcond] at hfind
      exact absurd hfind (by simp)
  · rintro ⟨e, he, hcat⟩
    subst hcat
    have hne : ¬ catRecords data e.category = [] :=
      List.ne_nil_of_mem (mem_catRecords data e he)
    have hfind := findGroup_buildGrouped data e.category
    rw [if_pos (Or.inr hne)] at hfind
    exact ⟨_, hfind, hasData_of_mem data e he⟩

/-- C8: both core operations are total functions of the record sequence —
for any amounts (zero or negative included) and any category, payer or
consumer strings, the export is a well-formed document (header through
who-owes-whom row) and the settlement is a well-formed result in which
every amount lands in the sums. -/
theorem c8_totality (data : List ExpRecord) :
    (∃ rest, generate_csv data =
      "Category,H Cost (Formula),M Cost (Formula),Total Category Cost\n" ++ rest) ∧
    (∃ pre, generate_csv data =
      pre ++ ("Who Owes Whom?," ++
        settlementTxt (calculate_settlement data).balance_h ++ ",,\n")) ∧
    (calculate_settlement data).total_paid_h + (calculate_settlement data).total_paid_m =
      (calculate_settlement data).cost_h + (calculate_settlement data).cost_m ∧
    (calculate_settlement data).balance_h =
      (calculate_settlement data).total_paid_h - (calculate_settlement data).cost_h := by
  refine ⟨⟨String.join (rowsOf (buildGrouped data)) ++ "\nSUMMARY,,,\n" ++
      "Total Paid By H,$" ++ fmt2 (calculate_settlement data).total_paid_h ++
      ",Total Paid By M,$" ++ fmt2 (calculate_settlement data).total_paid_m ++ "\n" ++
      "Who Owes Whom?," ++ settlementTxt (calculate_settlement data).balance_h ++ ",,\n", ?_⟩,
    generate_csv_suffix data, ?_, ?_⟩
  · rw [generate_csv_eq]
    simp only [String.append_assoc]
  · rw [calculate_settlement_eq]
    exact paid_cost_conservation data
  · rw [calculate_settlement_eq]

/-- C10: three independently conditioned facts about the default branches.
Whenever the payer is anything other than `H`, the amount is counted in
`total_paid_m` (and not in `total_paid_h`); whenever the consumer is anything
other than `Split` and `H only`, the full amount is attributed to `cost_m`
(and none to `cost_h`); and in the export's grouping an amount lands in the
`Split` bucket exactly when the consumer is neither `H only` nor `M only`. -/
theorem c10_default_branches (e : ExpRecord) (data : List ExpRecord) :
    (¬ e.payer = "H" →
      (calculate_settlement (e :: data)).total_paid_m =
          e.amount.val + (calculate_settlement data).total_paid_m ∧
        (calculate_settlement (e :: data)).total_paid_h =
          (calculate_settlement data).total_paid_h) ∧
    (¬ e.consumer = "Split" → ¬ e.consumer = "H only" →
      (calculate_settlement (e :: data)).cost_m =
          e.amount.val + (calculate_settlement data).cost_m ∧
        (calculate_settlement (e :: data)).cost_h = (calculate_settlement data).cost_h) ∧
    (∀ b a, (addToBucket b e.consumer a).Split = b.Split ++ [a] ↔
      (¬ e.consumer = "H only" ∧ ¬ e.consumer = "M only")) := by
  refine ⟨fun hp => ⟨?_, ?_⟩, fun hs hh => ⟨?_, ?_⟩, fun b a => ⟨fun hsp => ?_, fun hok => ?_⟩⟩
  · simp [calculate_settlement_eq, paidMc, hp]
  · simp [calculate_settlement_eq, paidHc, hp]
  · simp [calculate_settlement_eq, costMc, hs, hh]
  · simp [calculate_settlement_eq, costHc, hs, hh]
  · constructor
    · intro h1
      unfold addToBucket at hsp
      rw [if_pos h1] at hsp
      simp at hsp
    · intro h2
      by_cases h1 : e.consumer = "H only"
      · unfold addToBucket at hsp
        rw [if_pos h1] at hsp
        simp at hsp
      · unfold addToBucket at hsp
        rw [if_neg h1, if_pos h2] at hsp
        simp at hsp
  · unfold addToBucket
    rw [if_neg hok.1, if_neg hok.2]

/-- Witness for C10 at a record with payer `X` and consumer `Split`: the
payer conditional applies on its own even though the consumer is `Split`. -/
theorem c10_default_branches_witness :
    (calculate_settlement [rXSplit, rH20]).total_paid_m =
      rXSplit.amount.val + (calculate_settlement [rH20]).total_paid_m ∧
    (calculate_settlement [rXSplit, rH20]).total_paid_h =
      (calculate_settlement [rH20]).total_paid_h :=
  (c10_default_branches rXSplit [rH20]).1 (by decide)

end Expenses
